import Mathlib

/-!
Verification of the accuracy core of the `doppelganger` repository
(`doppelganger/accuracy.py`) against its natural-language specification.

The Python code is shallowly embedded:

* the five input tables of an `Accuracy` object become lists of typed
  records; categorical cells that may be null in a CSV are `Option String`,
  sampling weights are `ℚ`;
* `marginals.CONTROLS` (the control specification, an external collaborator
  module) is a parameter: an association list from variable name to the list
  of its bin labels;
* fallible steps (`KeyError` on a missing control or marginal column,
  `ValueError` from `list.remove`, the `pandas.DataFrame` width check) are
  modelled with `Option`;
* `numpy` floating-point results are modelled by `NpVal`
  (finite real / +inf / -inf / NaN) and the pandas `mean` (which skips NaN
  but not infinities) is modelled on that type.
-/

namespace Doppelganger

/-- A survey (PUMS) person record: the categorical `age` cell (possibly
null in the CSV) and the numeric `person_weight` sampling weight. -/
structure PersonRec where
  age : Option String
  person_weight : ℚ
deriving DecidableEq

/-- A survey (PUMS) household record: categorical `num_people` and
`num_vehicles` cells and the `household_weight` sampling weight. -/
structure HouseholdRec where
  num_people : Option String
  num_vehicles : Option String
  household_weight : ℚ
deriving DecidableEq

/-- A generated-population person record.  `firstColPresent` records whether
the cell of the table's first column is non-null in this row: the source
counts generated records with `df.count()[0]`, the number of non-null
entries of the first column of the filtered frame. -/
structure GenPersonRec where
  age : Option String
  firstColPresent : Bool
deriving DecidableEq

/-- A generated-population household record (see `GenPersonRec` for
`firstColPresent`). -/
structure GenHouseholdRec where
  num_people : Option String
  num_vehicles : Option String
  firstColPresent : Bool
deriving DecidableEq

/-- The five tables held by an `Accuracy` object.  The marginals table is a
list of named columns, each a list of values (`accuracy.py` sums a whole
column with `.sum()`). -/
structure Accuracy where
  person_pums : List PersonRec
  household_pums : List HouseholdRec
  marginals : List (String × List ℚ)
  generated_persons : List GenPersonRec
  generated_households : List GenHouseholdRec
deriving DecidableEq

/-- One row of the comparison dataframe: the `pums`, `gen` and `marginal`
columns; `none` models a NaN cell. -/
structure CompRow where
  pums : Option ℚ
  gen : Option ℚ
  marginal : Option ℚ
deriving DecidableEq

/-- Association-list lookup, modelling a Python dict/`pandas` column
subscript: the value at the first entry with the given key. -/
def assocGet (d : List (String × List α)) (k : String) : Option (List α) :=
  (d.find? (fun p => p.1 = k)).map (fun p => p.2)

/-- `self.person_pums[self.person_pums[variable] == bin].person_weight.sum()`:
the sum of `person_weight` over survey persons whose `age` cell equals the
bin (a null cell never equals the bin). -/
def personWeightSum (ps : List PersonRec) (b : String) : ℚ :=
  ((ps.filter (fun p => p.age = some b)).map (fun p => p.person_weight)).sum

/-- `self.household_pums[self.household_pums['num_people'] == bin]
.household_weight.sum()`. -/
def hhWeightSumByNumPeople (hs : List HouseholdRec) (b : String) : ℚ :=
  ((hs.filter (fun h => h.num_people = some b)).map (fun h => h.household_weight)).sum

/-- `self.household_pums[self.household_pums['num_vehicles'] == bin]
.household_weight.sum()`. -/
def hhWeightSumByNumVehicles (hs : List HouseholdRec) (b : String) : ℚ :=
  ((hs.filter (fun h => h.num_vehicles = some b)).map (fun h => h.household_weight)).sum

/-- `self.generated_persons[self.generated_persons[variable] == bin]
.count()[0]`: `DataFrame.count()` gives per-column non-null counts and `[0]`
selects the first column, so this is the number of matching rows whose
first-column cell is non-null. -/
def genPersonCount (gs : List GenPersonRec) (b : String) : ℕ :=
  ((gs.filter (fun g => g.age = some b)).filter (fun g => g.firstColPresent)).length

/-- `self.generated_households[... ['num_people'] == bin].count()[0]`. -/
def genHHCountByNumPeople (gs : List GenHouseholdRec) (b : String) : ℕ :=
  ((gs.filter (fun g => g.num_people = some b)).filter (fun g => g.firstColPresent)).length

/-- `self.generated_households[... ['num_vehicles'] == bin].count()[0]`. -/
def genHHCountByNumVehicles (gs : List GenHouseholdRec) (b : String) : ℕ :=
  ((gs.filter (fun g => g.num_vehicles = some b)).filter (fun g => g.firstColPresent)).length

/-- `self.marginals[variable+'_'+bin].sum()`, `none` when the column is
absent (a `KeyError` in the source). -/
def marginalSum (m : List (String × List ℚ)) (c : String) : Option ℚ :=
  (assocGet m c).map List.sum

/-- The list of values appended to `d[(variable, bin)]` for one `(variable,
bin)` pair of `_comparison_dataframe`: the two branch counts when the
variable has an `if`/`elif` branch (`age`, `num_people`, `num_vehicles`),
nothing otherwise, followed in every case by the marginal column sum.
`none` models the `KeyError` on a missing marginal column. -/
def rowVals (acc : Accuracy) (v b : String) : Option (List ℚ) :=
  (marginalSum acc.marginals (v ++ "_" ++ b)).map (fun m =>
    (if v = "age" then
      [personWeightSum acc.person_pums b,
       (genPersonCount acc.generated_persons b : ℚ)]
    else if v = "num_people" then
      [hhWeightSumByNumPeople acc.household_pums b,
       (genHHCountByNumPeople acc.generated_households b : ℚ)]
    else if v = "num_vehicles" then
      [hhWeightSumByNumVehicles acc.household_pums b,
       (genHHCountByNumVehicles acc.generated_households b : ℚ)]
    else []) ++ [m])

/-- Python-2 dict assignment `d[k] = v`: overwrite the entry with key `k` if
present (keeping its position), append a new entry otherwise. -/
def dictInsert (d : List (String × List String)) (k : String) (v : List String) :
    List (String × List String) :=
  if d.any (fun p => p.1 = k) then
    d.map (fun p => if p.1 = k then (k, v) else p)
  else d ++ [(k, v)]

/-- The `variables` dict of `_comparison_dataframe`: the whole control
specification when `['all']` is requested, otherwise the result of
`variables[var] = marginals.CONTROLS[var].keys()` for each requested
variable, with `none` modelling the `KeyError` on a variable absent from
`CONTROLS`. -/
def buildVariables (controls : List (String × List String)) (mvars : List String) :
    Option (List (String × List String)) :=
  if mvars = ["all"] then some controls
  else
    mvars.foldlM
      (fun d v => (assocGet controls v).map (fun bins => dictInsert d v bins)) []

/-- `if 'num_people' in variables.keys(): variables['num_people'].remove('count')`:
Python-2 `list.remove` deletes the first occurrence and raises `ValueError`
(modelled by `none`) when `'count'` is absent. -/
def removeCount (d : List (String × List String)) :
    Option (List (String × List String)) :=
  match assocGet d "num_people" with
  | none => some d
  | some bins =>
    if "count" ∈ bins then
      some (d.map (fun p =>
        if p.1 = "num_people" then ("num_people", bins.erase "count") else p))
    else none

/-- The `(variable, bin)` keys of the ordered dict `d`, variable-major with
each variable's bins in specification order. -/
def varBinPairs (d : List (String × List String)) : List (String × String) :=
  d.foldr (fun p acc => p.2.map (fun b => (p.1, b)) ++ acc) []

/-- The value lists of the ordered dict `d` of `_comparison_dataframe`, one
per `(variable, bin)` key, each produced by `rowVals`; `none` propagates a
`KeyError` on a missing marginal column. -/
def buildRowLists (acc : Accuracy) : List (String × String) →
    Option (List ((String × String) × List ℚ))
  | [] => some []
  | p :: rest => do
    let l ← rowVals acc p.1 p.2
    let rs ← buildRowLists acc rest
    some ((p, l) :: rs)

/-- A row list padded to the three columns `['pums', 'gen', 'marginal']`:
`pandas` pads a short row with NaN at the end, so a one-element list (an
unmatched variable) puts its single value in the `pums` column. -/
def padRow (l : List ℚ) : CompRow :=
  ⟨l[0]?, l[1]?, l[2]?⟩

/-- `pd.DataFrame(d.values(), index=d.keys(), columns=['pums', 'gen',
'marginal'])`: an empty dict gives an empty frame; otherwise the width of
the data (the longest row, here always 1 or 3) must equal the three column
names or `pandas` raises `ValueError` (modelled by `none`); short rows are
NaN-padded at the end. -/
def toCompTable (rows : List ((String × String) × List ℚ)) :
    Option (List ((String × String) × CompRow)) :=
  if rows = [] then some []
  else if (rows.map (fun r => r.2.length)).foldr Nat.max 0 = 3 then
    some (rows.map (fun r => (r.1, padRow r.2)))
  else none

/-- `Accuracy._comparison_dataframe(marginal_variables)`.  `controls` stands
for the external `marginals.CONTROLS` mapping; the requested variables are
given as the list `marginal_variables` (the source treats the bare string
`'all'` and the list `['all']` identically, so only the list form is
modelled). -/
def comparison_dataframe (controls : List (String × List String)) (acc : Accuracy)
    (marginal_variables : List String) :
    Option (List ((String × String) × CompRow)) := do
  let d ← buildVariables controls marginal_variables
  let d' ← removeCount d
  let rows ← buildRowLists acc (varBinPairs d')
  toCompTable rows

/-- A `numpy` floating-point scalar, idealized: a finite real, one of the
two infinities, or NaN. -/
inductive NpVal where
  | fin (x : ℝ)
  | pinf
  | ninf
  | nan

/-- Whether an `NpVal` is NaN. -/
def NpVal.isNan : NpVal → Bool
  | .nan => true
  | _ => false

/-- Floating-point addition on non-NaN summands (as used by the pandas
`mean`, which drops NaN entries first): infinities absorb finite values and
opposite infinities give NaN. -/
def npAdd : NpVal → NpVal → NpVal
  | .nan, _ => .nan
  | _, .nan => .nan
  | .pinf, .ninf => .nan
  | .ninf, .pinf => .nan
  | .pinf, _ => .pinf
  | _, .pinf => .pinf
  | .ninf, _ => .ninf
  | _, .ninf => .ninf
  | .fin a, .fin b => .fin (a + b)

/-- Division of an `NpVal` by a positive natural count. -/
noncomputable def npDivNat (v : NpVal) (n : ℕ) : NpVal :=
  match v with
  | .fin x => .fin (x / n)
  | .pinf => .pinf
  | .ninf => .ninf
  | .nan => .nan

/-- `np.mean` of a pandas Series (`Series.mean` with the default
`skipna=True`): the NaN entries are dropped, the rest are summed and the
sum is divided by their number; an all-NaN or empty series gives NaN.
Infinities are not dropped. -/
noncomputable def npMean (xs : List NpVal) : NpVal :=
  let ys := xs.filter (fun v => !v.isNan)
  if ys.isEmpty then .nan else npDivNat (ys.foldl npAdd (.fin 0)) ys.length

/-- `np.sqrt` on a scalar: NaN on negative (or NaN or `-inf`) input. -/
noncomputable def npSqrt : NpVal → NpVal
  | .fin x => if x < 0 then .nan else .fin (Real.sqrt x)
  | .pinf => .pinf
  | .ninf => .nan
  | .nan => .nan

/-- IEEE division of finite floats: `0/0` is NaN, `x/0` for `x ≠ 0` is the
correspondingly signed infinity, and no error is ever raised. -/
noncomputable def npDiv (a b : ℝ) : NpVal :=
  if b = 0 then (if a = 0 then .nan else if 0 < a then .pinf else .ninf)
  else .fin (a / b)

/-- One cell of `np.square(df.pums - df.marginal)` (and of the `gen`
analogue): NaN when either operand is NaN. -/
noncomputable def sqDiff (a b : Option ℚ) : NpVal :=
  match a, b with
  | some x, some y => .fin (((x : ℝ) - (y : ℝ)) ^ 2)
  | _, _ => .nan

/-- One cell of `np.sqrt(np.square(df.pums - df.marginal))`. -/
noncomputable def sqrtSqDiff (a b : Option ℚ) : NpVal :=
  match a, b with
  | some x, some y => .fin (Real.sqrt (((x : ℝ) - (y : ℝ)) ^ 2))
  | _, _ => .nan

/-- The per-row symmetric percentage error of `mean_absolute_pct_error` on
two present (non-NaN) cells: `|x - m| / ((x + m)/2)`, computed with the
unguarded IEEE division `npDiv`. -/
noncomputable def pctErrRow (x m : ℚ) : NpVal :=
  npDiv |(x : ℝ) - (m : ℝ)| (((x : ℝ) + (m : ℝ)) / 2)

/-- One cell of `np.abs(df.pums - df.marginal)/((df.pums + df.marginal)/2)`:
NaN when either operand is NaN, `pctErrRow` otherwise. -/
noncomputable def pctDiff (a b : Option ℚ) : NpVal :=
  match a, b with
  | some x, some y => pctErrRow x y
  | _, _ => .nan

/-- `Accuracy.root_mean_squared_error`:
`(np.sqrt(np.mean(np.square(df.pums - df.marginal))),
  np.sqrt(np.mean(np.square(df.gen - df.marginal))))`. -/
noncomputable def root_mean_squared_error (t : List CompRow) : NpVal × NpVal :=
  (npSqrt (npMean (t.map (fun r => sqDiff r.pums r.marginal))),
   npSqrt (npMean (t.map (fun r => sqDiff r.gen r.marginal))))

/-- `Accuracy.mean_root_squared_error` (the returned pair; the verbose
printing is a side effect only):
`(np.mean(np.sqrt(np.square(df.pums - df.marginal))),
  np.mean(np.sqrt(np.square(df.gen - df.marginal))))`. -/
noncomputable def mean_root_squared_error (t : List CompRow) : NpVal × NpVal :=
  (npMean (t.map (fun r => sqrtSqDiff r.pums r.marginal)),
   npMean (t.map (fun r => sqrtSqDiff r.gen r.marginal)))

/-- `Accuracy.mean_absolute_pct_error` (the returned pair; the verbose
printing is a side effect only). -/
noncomputable def mean_absolute_pct_error (t : List CompRow) : NpVal × NpVal :=
  (npMean (t.map (fun r => pctDiff r.pums r.marginal)),
   npMean (t.map (fun r => pctDiff r.gen r.marginal)))

/-- An error escaping `run_pumas`: the dedicated `AccuracyException` raised
for an unrecognized statistic name, or an exception (`KeyError` /
`ValueError`) propagating out of the comparison-dataframe construction. -/
inductive RunError where
  | accuracyException
  | datasetError
deriving DecidableEq

/-- The body of the `run_pumas` loop for one `(state, puma)` pair: the
`if`/`elif` dispatch on the statistic name, in source order, over the
already-loaded `Accuracy` object; an unrecognized name raises
`AccuracyException`. -/
noncomputable def runPuma (controls : List (String × List String)) (acc : Accuracy)
    (mvars : List String) (statistic : String) :
    Except RunError (NpVal × NpVal) :=
  if statistic = "mean_absolute_pct_error" then
    match comparison_dataframe controls acc mvars with
    | some t => .ok (mean_absolute_pct_error (t.map (fun r => r.2)))
    | none => .error .datasetError
  else if statistic = "mean_root_squared_error" then
    match comparison_dataframe controls acc mvars with
    | some t => .ok (mean_root_squared_error (t.map (fun r => r.2)))
    | none => .error .datasetError
  else if statistic = "root_mean_squared_error" then
    match comparison_dataframe controls acc mvars with
    | some t => .ok (root_mean_squared_error (t.map (fun r => r.2)))
    | none => .error .datasetError
  else .error .accuracyException

/-- The sequential loop of `run_pumas` over the flattened `(state, puma)`
pairs; the first exception aborts the whole batch. -/
noncomputable def runPumasList (controls : List (String × List String))
    (load : String → String → Accuracy) (mvars : List String)
    (statistic : String) :
    List (String × String) →
    Except RunError (List ((String × String) × (NpVal × NpVal)))
  | [] => .ok []
  | (s, p) :: rest => do
    let r ← runPuma controls (load s p) mvars statistic
    let rs ← runPumasList controls load mvars statistic rest
    .ok (((s, p), r) :: rs)

/-- The summary dataframe returned by `run_pumas`: one row per processed
`(state, puma)` pair and the two named columns. -/
structure SummaryFrame where
  rows : List ((String × String) × (NpVal × NpVal))
  columns : List String

/-- The `(state, puma)` pairs visited by the two nested `for` loops of
`run_pumas`, in iteration order. -/
def statePumaPairs (state_puma : List (String × List String)) :
    List (String × String) :=
  state_puma.foldr (fun sp acc => sp.2.map (fun p => (sp.1, p)) ++ acc) []

/-- `Accuracy.run_pumas(state_puma, data_dir, variables, statistic,
verbose)`.  The out-of-scope loader (`Accuracy.from_data_dir`, file I/O) is
the external collaborator `load`, supplying the five already-parsed tables
for each `(state, puma)` pair; `state_puma` is the mapping from state to its
puma list, in iteration order. -/
noncomputable def run_pumas (controls : List (String × List String))
    (state_puma : List (String × List String))
    (load : String → String → Accuracy) (mvars : List String)
    (statistic : String) : Except RunError SummaryFrame :=
  (runPumasList controls load mvars statistic (statePumaPairs state_puma)).map
    (fun rs => ⟨rs, ["marginal-pums", "marginal-doppelganger"]⟩)

/-- The arithmetic mean of a list of reals, used to state the metric
claims. -/
noncomputable def lmean (xs : List ℝ) : ℝ := xs.sum / xs.length

/-- A comparison table all of whose cells are present (no NaN), built from
`(pums, gen, marginal)` triples: the shape described by the specification's
data model. -/
def toCompRows (l : List (ℚ × ℚ × ℚ)) : List CompRow :=
  l.map (fun r => ⟨some r.1, some r.2.1, some r.2.2⟩)

/-- An `Accuracy` object with five empty tables. -/
def accEmpty : Accuracy := ⟨[], [], [], [], []⟩

/-- Control specification with the single variable `age`, for concrete
instances. -/
def controlsAge : List (String × List String) := [("age", ["a"])]

/-- Concrete input for C1: one generated person whose `age` equals bin
`"a"` but whose first-column cell is null, so `.count()[0]` does not count
it. -/
def accC1 : Accuracy := ⟨[], [], [("age_a", [5])], [⟨some "a", false⟩], []⟩

/-- Concrete multi-row input exercising the `age` branch: weights 3/2 and 1
match bin `"a"`, and two generated persons match with non-null first
column. -/
def accC1w : Accuracy :=
  ⟨[⟨some "a", 3/2⟩, ⟨some "b", 2⟩, ⟨some "a", 1⟩], [], [("age_a", [5])],
   [⟨some "a", true⟩, ⟨some "a", true⟩, ⟨some "b", true⟩], []⟩

/-- The comparison dataframe built from `accC1w`. -/
def tableC1w : List ((String × String) × CompRow) :=
  [(("age", "a"), ⟨some (5/2), some 2, some 5⟩)]

/-- Control specification containing a variable (`foo`) that has no
`if`/`elif` branch in `_comparison_dataframe`. -/
def controlsFoo : List (String × List String) := [("age", ["a"]), ("foo", ["x"])]

/-- Concrete input for C2: empty survey and generated tables, single-row
marginals for both requested variables. -/
def accFoo : Accuracy := ⟨[], [], [("age_a", [1]), ("foo_x", [7])], [], []⟩

/-- The comparison dataframe built from `accFoo`: the `foo` row's single
marginal value 7 lands in the `pums` column by positional padding. -/
def tableFoo : List ((String × String) × CompRow) :=
  [(("age", "a"), ⟨some 0, some 0, some 1⟩),
   (("foo", "x"), ⟨some 7, none, none⟩)]

/-- Control specification for C3 with a branch variable and an unmatched
variable. -/
def controlsC3 : List (String × List String) :=
  [("num_vehicles", ["0"]), ("bar", ["y"])]

/-- Concrete input for C3: single-row marginals table. -/
def accC3 : Accuracy := ⟨[], [], [("num_vehicles_0", [4]), ("bar_y", [6])], [], []⟩

/-- The comparison dataframe built from `accC3`. -/
def tableC3 : List ((String × String) × CompRow) :=
  [(("num_vehicles", "0"), ⟨some 0, some 0, some 4⟩),
   (("bar", "y"), ⟨some 6, none, none⟩)]

/-- Control specification for C4: `num_people` with its `count` pseudo-bin
and two genuine bins. -/
def controlsC4 : List (String × List String) := [("num_people", ["count", "1", "2"])]

/-- Concrete input for C4. -/
def accC4 : Accuracy := ⟨[], [], [("num_people_1", [9]), ("num_people_2", [3])], [], []⟩

/-- The comparison dataframe built from `accC4`: no `count` row. -/
def tableC4 : List ((String × String) × CompRow) :=
  [(("num_people", "1"), ⟨some 0, some 0, some 9⟩),
   (("num_people", "2"), ⟨some 0, some 0, some 3⟩)]

theorem toCompTable_some {rows : List ((String × String) × List ℚ)}
    {table : List ((String × String) × CompRow)}
    (h : toCompTable rows = some table) :
    table = rows.map (fun r => (r.1, padRow r.2)) := by
  unfold toCompTable at h
  split at h
  · next h0 => subst h0; simp at h; simp [h]
  · split at h
    · exact (Option.some.inj h).symm
    · cases h

theorem buildRowLists_mem (acc : Accuracy) :
    ∀ (ps : List (String × String)) (rows : List ((String × String) × List ℚ)),
      buildRowLists acc ps = some rows →
      ∀ k l, (k, l) ∈ rows → rowVals acc k.1 k.2 = some l := by
  intro ps
  induction ps with
  | nil =>
    intro rows h k l hm
    simp [buildRowLists] at h
    subst h
    simp at hm
  | cons p rest ih =>
    intro rows h k l hm
    simp [buildRowLists, Option.bind_eq_some] at h
    obtain ⟨l0, hl0, rs, hrs, hrows⟩ := h
    subst hrows
    rcases List.mem_cons.mp hm with h1 | h2
    · obtain ⟨hk, hl⟩ := Prod.mk.inj h1
      subst hk hl
      exact hl0
    · exact ih rs hrs k l h2

theorem buildRowLists_keys (acc : Accuracy) :
    ∀ (ps : List (String × String)) (rows : List ((String × String) × List ℚ)),
      buildRowLists acc ps = some rows → rows.map (fun r => r.1) = ps := by
  intro ps
  induction ps with
  | nil =>
    intro rows h
    simp [buildRowLists] at h
    subst h
    rfl
  | cons p rest ih =>
    intro rows h
    simp [buildRowLists, Option.bind_eq_some] at h
    obtain ⟨l0, _, rs, hrs, hrows⟩ := h
    subst hrows
    simp [ih rs hrs]

theorem mem_varBinPairs {d : List (String × List String)} {v b : String} :
    (v, b) ∈ varBinPairs d ↔ ∃ bins, (v, bins) ∈ d ∧ b ∈ bins := by
  induction d with
  | nil => simp [varBinPairs]
  | cons p rest ih =>
    obtain ⟨pv, pbins⟩ := p
    simp only [varBinPairs, List.foldr_cons, List.mem_append, List.mem_map,
      List.mem_cons] at *
    constructor
    · rintro (⟨b0, hb0, heq⟩ | hr)
      · obtain ⟨hv, hb⟩ := Prod.mk.inj heq
        exact ⟨pbins, Or.inl (by rw [hv]), hb ▸ hb0⟩
      · obtain ⟨bins, hbins, hb⟩ := ih.mp hr
        exact ⟨bins, Or.inr hbins, hb⟩
    · rintro ⟨bins, hpv | hbins, hb⟩
      · obtain ⟨hv, hbins⟩ := Prod.mk.inj hpv
        exact Or.inl ⟨b, hbins ▸ hb, by rw [hv]⟩
      · exact Or.inr (ih.mpr ⟨bins, hbins, hb⟩)

theorem comparison_dataframe_inv {controls : List (String × List String)}
    {acc : Accuracy} {mvars : List String}
    {table : List ((String × String) × CompRow)}
    (h : comparison_dataframe controls acc mvars = some table) :
    ∃ d d' rows, buildVariables controls mvars = some d ∧
      removeCount d = some d' ∧
      buildRowLists acc (varBinPairs d') = some rows ∧
      table = rows.map (fun r => (r.1, padRow r.2)) := by
  simp only [comparison_dataframe, bind, Option.bind_eq_some] at h
  obtain ⟨d, hd, d', hd', rows, hrows, htab⟩ := h
  exact ⟨d, d', rows, hd, hd', hrows, toCompTable_some htab⟩

theorem mem_comparison_rowVals {controls : List (String × List String)}
    {acc : Accuracy} {mvars : List String}
    {table : List ((String × String) × CompRow)} {v b : String} {row : CompRow}
    (h : comparison_dataframe controls acc mvars = some table)
    (hm : ((v, b), row) ∈ table) :
    ∃ l, rowVals acc v b = some l ∧ row = padRow l := by
  obtain ⟨d, d', rows, _, _, hrows, htab⟩ := comparison_dataframe_inv h
  subst htab
  obtain ⟨⟨k, l⟩, hkl, heq⟩ := List.mem_map.mp hm
  obtain ⟨hk, hr⟩ := Prod.mk.inj heq
  subst hk
  exact ⟨l, buildRowLists_mem acc _ rows hrows _ l hkl, hr.symm⟩

theorem rowVals_age {acc : Accuracy} {b : String} {l : List ℚ}
    (h : rowVals acc "age" b = some l) :
    ∃ m, marginalSum acc.marginals ("age" ++ "_" ++ b) = some m ∧
      l = [personWeightSum acc.person_pums b,
           (genPersonCount acc.generated_persons b : ℚ), m] := by
  simp only [rowVals, Option.map_eq_some', if_pos rfl] at h
  obtain ⟨m, hm, hl⟩ := h
  exact ⟨m, hm, by simp [← hl]⟩

theorem rowVals_num_people {acc : Accuracy} {b : String} {l : List ℚ}
    (h : rowVals acc "num_people" b = some l) :
    ∃ m, marginalSum acc.marginals ("num_people" ++ "_" ++ b) = some m ∧
      l = [hhWeightSumByNumPeople acc.household_pums b,
           (genHHCountByNumPeople acc.generated_households b : ℚ), m] := by
  simp only [rowVals, Option.map_eq_some'] at h
  obtain ⟨m, hm, hl⟩ := h
  exact ⟨m, hm, by simp [← hl]⟩

theorem rowVals_num_vehicles {acc : Accuracy} {b : String} {l : List ℚ}
    (h : rowVals acc "num_vehicles" b = some l) :
    ∃ m, marginalSum acc.marginals ("num_vehicles" ++ "_" ++ b) = some m ∧
      l = [hhWeightSumByNumVehicles acc.household_pums b,
           (genHHCountByNumVehicles acc.generated_households b : ℚ), m] := by
  simp only [rowVals, Option.map_eq_some'] at h
  obtain ⟨m, hm, hl⟩ := h
  exact ⟨m, hm, by simp [← hl]⟩

theorem rowVals_other {acc : Accuracy} {v b : String} {l : List ℚ}
    (h1 : v ≠ "age") (h2 : v ≠ "num_people") (h3 : v ≠ "num_vehicles")
    (h : rowVals acc v b = some l) :
    ∃ m, marginalSum acc.marginals (v ++ "_" ++ b) = some m ∧ l = [m] := by
  simp only [rowVals, Option.map_eq_some', if_neg h1, if_neg h2, if_neg h3] at h
  obtain ⟨m, hm, hl⟩ := h
  exact ⟨m, hm, by simp [← hl]⟩

theorem padRow_three (a b c : ℚ) : padRow [a, b, c] = ⟨some a, some b, some c⟩ := rfl

theorem padRow_one (a : ℚ) : padRow [a] = ⟨some a, none, none⟩ := rfl

theorem assocGet_eq_of_mem_nodup {d : List (String × List α)} {k : String}
    {v : List α} (hnd : (d.map Prod.fst).Nodup) (hm : (k, v) ∈ d) :
    assocGet d k = some v := by
  induction d with
  | nil => simp at hm
  | cons q rest ih =>
    have hnd2 := hnd
    rw [List.map_cons, List.nodup_cons] at hnd2
    rcases List.mem_cons.mp hm with h1 | h2
    · subst h1
      simp [assocGet]
    · have hq : ¬(q.1 = k) := by
        intro he
        exact hnd2.1 (he ▸ List.mem_map.mpr ⟨(k, v), h2, rfl⟩)
      have hrest := ih hnd2.2 h2
      simpa [assocGet, List.find?, hq] using hrest

theorem assocGet_mem {d : List (String × List α)} {k : String} {v : List α}
    (h : assocGet d k = some v) : (k, v) ∈ d := by
  simp only [assocGet, Option.map_eq_some'] at h
  obtain ⟨q, hq, hv⟩ := h
  have hmem := List.mem_of_find?_eq_some hq
  have hkey : q.1 = k := by simpa using List.find?_some hq
  have : q = (k, v) := by
    obtain ⟨q1, q2⟩ := q
    simp only at hkey hv
    rw [hkey, hv]
  exact this ▸ hmem

theorem assocGet_none_not_mem {d : List (String × List α)} {k : String}
    (h : assocGet d k = none) : ∀ p ∈ d, p.1 ≠ k := by
  simp only [assocGet, Option.map_eq_none', List.find?_eq_none] at h
  intro p hp
  simpa using h p hp

theorem dictInsert_entry_mem {d : List (String × List String)} {k : String}
    {v : List String} {p : String × List String} (hp : p ∈ dictInsert d k v) :
    p ∈ d ∨ p = (k, v) := by
  unfold dictInsert at hp
  split at hp
  · obtain ⟨q, hq, hpq⟩ := List.mem_map.mp hp
    by_cases hqk : q.1 = k
    · right
      rw [if_pos hqk] at hpq
      exact hpq.symm
    · left
      rw [if_neg hqk] at hpq
      exact hpq ▸ hq
  · rcases List.mem_append.mp hp with h1 | h2
    · exact Or.inl h1
    · exact Or.inr (by simpa using h2)

theorem dictInsert_mem_self (d : List (String × List String)) (k : String)
    (v : List String) : (k, v) ∈ dictInsert d k v := by
  unfold dictInsert
  split
  · next hany =>
    obtain ⟨q, hq, hqk⟩ := List.any_eq_true.mp hany
    exact List.mem_map.mpr ⟨q, hq, by simp [of_decide_eq_true hqk]⟩
  · simp

theorem dictInsert_mem_preserve {d : List (String × List String)} {k' : String}
    {v' : List String} {p : String × List String} (hp : p ∈ d)
    (hc : p.1 = k' → p.2 = v') : p ∈ dictInsert d k' v' := by
  unfold dictInsert
  split
  · refine List.mem_map.mpr ⟨p, hp, ?_⟩
    by_cases hk : p.1 = k'
    · rw [if_pos hk]
      obtain ⟨p1, p2⟩ := p
      simp only at hk hc
      rw [← hk, hc hk]
    · rw [if_neg hk]
  · exact List.mem_append.mpr (Or.inl hp)

theorem dictInsert_keys_nodup {d : List (String × List String)} {k : String}
    {v : List String} (h : (d.map Prod.fst).Nodup) :
    ((dictInsert d k v).map Prod.fst).Nodup := by
  unfold dictInsert
  split
  · have : (d.map (fun p => if p.1 = k then (k, v) else p)).map Prod.fst =
        d.map Prod.fst := by
      rw [List.map_map]
      refine List.map_congr_left ?_
      intro p _
      by_cases hk : p.1 = k
      · simp [hk]
      · simp [hk]
    rw [this]
    exact h
  · next hany =>
    have hk : k ∉ d.map Prod.fst := by
      intro hmem
      obtain ⟨q, hq, hqk⟩ := List.mem_map.mp hmem
      exact hany (List.any_eq_true.mpr ⟨q, hq, by simp [hqk]⟩)
    simpa using List.Nodup.append h (by simp) (by simpa [List.disjoint_singleton] using hk)

theorem foldl_insert_preserve (controls : List (String × List String)) :
    ∀ (vs : List String) (d0 d : List (String × List String)),
      vs.foldlM (fun d v =>
        (assocGet controls v).map (fun bins => dictInsert d v bins)) d0 = some d →
      ∀ k bins, (k, bins) ∈ d0 → assocGet controls k = some bins → (k, bins) ∈ d := by
  intro vs
  induction vs with
  | nil =>
    intro d0 d h k bins hm _
    simp [List.foldlM] at h
    exact h ▸ hm
  | cons v rest ih =>
    intro d0 d h k bins hm hget
    rw [List.foldlM_cons] at h
    cases hbv : assocGet controls v with
    | none => rw [hbv] at h; simp at h
    | some bv =>
      rw [hbv] at h
      simp only [Option.map_some', Option.some_bind] at h
      refine ih (dictInsert d0 v bv) d h k bins ?_ hget
      refine dictInsert_mem_preserve hm ?_
      intro hk
      simp only at hk
      subst hk
      exact Option.some.inj (hget.symm.trans hbv)

theorem foldl_insert_requested (controls : List (String × List String)) :
    ∀ (vs : List String) (d0 d : List (String × List String)),
      vs.foldlM (fun d v =>
        (assocGet controls v).map (fun bins => dictInsert d v bins)) d0 = some d →
      ∀ k bins, k ∈ vs → assocGet controls k = some bins → (k, bins) ∈ d := by
  intro vs
  induction vs with
  | nil =>
    intro d0 d _ k bins hk
    simp at hk
  | cons v rest ih =>
    intro d0 d h k bins hk hget
    rw [List.foldlM_cons] at h
    cases hbv : assocGet controls v with
    | none => rw [hbv] at h; simp at h
    | some bv =>
      rw [hbv] at h
      simp only [Option.map_some', Option.some_bind] at h
      rcases List.mem_cons.mp hk with h1 | h2
      · subst h1
        have hbins : bv = bins := Option.some.inj (hbv.symm.trans hget)
        subst hbins
        exact foldl_insert_preserve controls rest (dictInsert d0 k bv) d h k bv
          (dictInsert_mem_self d0 k bv) hget
      · exact ih (dictInsert d0 v bv) d h k bins h2 hget

theorem foldl_insert_subset (controls : List (String × List String)) :
    ∀ (vs : List String) (d0 d : List (String × List String)),
      vs.foldlM (fun d v =>
        (assocGet controls v).map (fun bins => dictInsert d v bins)) d0 = some d →
      ∀ p ∈ d, p ∈ d0 ∨ p ∈ controls := by
  intro vs
  induction vs with
  | nil =>
    intro d0 d h p hp
    simp [List.foldlM] at h
    exact Or.inl (h ▸ hp)
  | cons v rest ih =>
    intro d0 d h p hp
    rw [List.foldlM_cons] at h
    cases hbv : assocGet controls v with
    | none => rw [hbv] at h; simp at h
    | some bv =>
      rw [hbv] at h
      simp only [Option.map_some', Option.some_bind] at h
      rcases ih (dictInsert d0 v bv) d h p hp with h1 | h2
      · rcases dictInsert_entry_mem h1 with h3 | h3
        · exact Or.inl h3
        · exact Or.inr (h3 ▸ assocGet_mem hbv)
      · exact Or.inr h2

theorem foldl_insert_keys_nodup (controls : List (String × List String)) :
    ∀ (vs : List String) (d0 d : List (String × List String)),
      vs.foldlM (fun d v =>
        (assocGet controls v).map (fun bins => dictInsert d v bins)) d0 = some d →
      (d0.map Prod.fst).Nodup → (d.map Prod.fst).Nodup := by
  intro vs
  induction vs with
  | nil =>
    intro d0 d h h0
    simp [List.foldlM] at h
    exact h ▸ h0
  | cons v rest ih =>
    intro d0 d h h0
    rw [List.foldlM_cons] at h
    cases hbv : assocGet controls v with
    | none => rw [hbv] at h; simp at h
    | some bv =>
      rw [hbv] at h
      simp only [Option.map_some', Option.some_bind] at h
      exact ih (dictInsert d0 v bv) d h (dictInsert_keys_nodup h0)

theorem buildVariables_subset {controls : List (String × List String)}
    {mvars : List String} {d : List (String × List String)}
    (h : buildVariables controls mvars = some d) : ∀ p ∈ d, p ∈ controls := by
  unfold buildVariables at h
  split at h
  · intro p hp
    exact (Option.some.inj h) ▸ hp
  · intro p hp
    rcases foldl_insert_subset controls mvars [] d h p hp with h1 | h1
    · simp at h1
    · exact h1

theorem buildVariables_keys_nodup {controls : List (String × List String)}
    {mvars : List String} {d : List (String × List String)}
    (h : buildVariables controls mvars = some d)
    (hnd : (controls.map Prod.fst).Nodup) : (d.map Prod.fst).Nodup := by
  unfold buildVariables at h
  split at h
  · exact (Option.some.inj h) ▸ hnd
  · exact foldl_insert_keys_nodup controls mvars [] d h (by simp)

theorem buildVariables_requested {controls : List (String × List String)}
    {mvars : List String} {d : List (String × List String)} {bins : List String}
    (h : buildVariables controls mvars = some d)
    (hreq : mvars = ["all"] ∨ "num_people" ∈ mvars)
    (hget : assocGet controls "num_people" = some bins) :
    ("num_people", bins) ∈ d := by
  unfold buildVariables at h
  split at h
  · exact (Option.some.inj h) ▸ assocGet_mem hget
  · next hne =>
    rcases hreq with h1 | h1
    · exact absurd h1 hne
    · exact foldl_insert_requested controls mvars [] d h "num_people" bins h1 hget

theorem removeCount_of_none {d d' : List (String × List String)}
    (h0 : assocGet d "num_people" = none) (h : removeCount d = some d') :
    d' = d := by
  unfold removeCount at h
  rw [h0] at h
  exact (Option.some.inj h).symm

theorem removeCount_of_some {d d' : List (String × List String)}
    {bins : List String} (h0 : assocGet d "num_people" = some bins)
    (h : removeCount d = some d') :
    "count" ∈ bins ∧
    d' = d.map (fun p =>
      if p.1 = "num_people" then ("num_people", bins.erase "count") else p) := by
  unfold removeCount at h
  simp only [h0] at h
  split at h
  · next hc => exact ⟨hc, (Option.some.inj h).symm⟩
  · cases h

theorem removeCount_np_mem {d d' : List (String × List String)}
    {bins : List String} (hnd : (d.map Prod.fst).Nodup)
    (hm : ("num_people", bins) ∈ d) (h : removeCount d = some d') :
    ("num_people", bins.erase "count") ∈ d' := by
  have h0 := assocGet_eq_of_mem_nodup hnd hm
  obtain ⟨_, hd'⟩ := removeCount_of_some h0 h
  subst hd'
  exact List.mem_map.mpr ⟨("num_people", bins), hm, by simp⟩

theorem removeCount_no_count {d d' : List (String × List String)}
    (hbnd : ∀ bins, ("num_people", bins) ∈ d → bins.Nodup)
    (h : removeCount d = some d') :
    ∀ p ∈ d', p.1 = "num_people" → "count" ∉ p.2 := by
  intro p hp hk
  cases h0 : assocGet d "num_people" with
  | none =>
    have hd := removeCount_of_none h0 h
    subst hd
    exact absurd hk (assocGet_none_not_mem h0 p hp)
  | some bins =>
    obtain ⟨_, hd'⟩ := removeCount_of_some h0 h
    subst hd'
    obtain ⟨q, hq, hpq⟩ := List.mem_map.mp hp
    by_cases hqk : q.1 = "num_people"
    · rw [if_pos hqk] at hpq
      subst hpq
      simp only
      have hbins : ("num_people", bins) ∈ d := assocGet_mem h0
      exact (hbnd bins hbins).not_mem_erase
    · rw [if_neg hqk] at hpq
      exact absurd (hpq ▸ hk) hqk

/-- C4: whenever `num_people` is among the requested variables (explicitly
or through the `all` request) and the comparison dataframe is built, the
pseudo-bin row `("num_people", "count")` never appears, while every other
`num_people` bin of the control specification does appear.  The two `Nodup`
hypotheses record that `marginals.CONTROLS` is a Python dict of dicts:
its keys, and each variable's bin keys, are distinct. -/
theorem num_people_count_excluded (controls : List (String × List String))
    (acc : Accuracy) (mvars : List String)
    (table : List ((String × String) × CompRow))
    (hkey : (controls.map Prod.fst).Nodup)
    (hbins : ∀ bins, ("num_people", bins) ∈ controls → bins.Nodup)
    (h : comparison_dataframe controls acc mvars = some table) :
    (∀ r ∈ table, r.1 ≠ ("num_people", "count")) ∧
    (∀ bins, ("num_people", bins) ∈ controls →
      (mvars = ["all"] ∨ "num_people" ∈ mvars) →
      ∀ b ∈ bins, b ≠ "count" → ∃ r ∈ table, r.1 = ("num_people", b)) := by
  obtain ⟨d, d', rows, hd, hd', hrows, htab⟩ := comparison_dataframe_inv h
  have hdnd : (d.map Prod.fst).Nodup := buildVariables_keys_nodup hd hkey
  have hdbnd : ∀ bins, ("num_people", bins) ∈ d → bins.Nodup := fun bins hm =>
    hbins bins (buildVariables_subset hd _ hm)
  constructor
  · intro r hr hcon
    subst htab
    obtain ⟨⟨k, l⟩, hkl, hr'⟩ := List.mem_map.mp hr
    have hk : k = ("num_people", "count") := by
      rw [← hcon, ← hr']
    have hkp : k ∈ varBinPairs d' := by
      have hkeys := buildRowLists_keys acc _ rows hrows
      rw [← hkeys]
      exact List.mem_map.mpr ⟨(k, l), hkl, rfl⟩
    rw [hk] at hkp
    obtain ⟨bins0, hbins0, hcnt⟩ := mem_varBinPairs.mp hkp
    exact removeCount_no_count hdbnd hd' ("num_people", bins0) hbins0 rfl hcnt
  · intro bins hbc hreq b hb hbne
    have hget : assocGet controls "num_people" = some bins :=
      assocGet_eq_of_mem_nodup hkey hbc
    have hmemd : ("num_people", bins) ∈ d := buildVariables_requested hd hreq hget
    have hmemd' : ("num_people", bins.erase "count") ∈ d' :=
      removeCount_np_mem hdnd hmemd hd'
    have hbp : ("num_people", b) ∈ varBinPairs d' :=
      mem_varBinPairs.mpr ⟨bins.erase "count", hmemd',
        (List.mem_erase_of_ne hbne).mpr hb⟩
    have hkeys := buildRowLists_keys acc _ rows hrows
    rw [← hkeys] at hbp
    obtain ⟨⟨k, l⟩, hkl, hk⟩ := List.mem_map.mp hbp
    subst htab
    exact ⟨((k, l).1, padRow (k, l).2), List.mem_map.mpr ⟨(k, l), hkl, rfl⟩, hk⟩

/-- C1 (amended): in every row of a built comparison dataframe whose
variable has a branch, the `pums` cell is exactly the claimed weight sum
over the survey records whose variable cell equals the bin, and the `gen`
cell is the number of matching generated records whose first-column cell is
non-null (the value of `.count()[0]`) — not, as claimed, the raw number of
matching generated records. -/
theorem comparison_branch_counts (controls : List (String × List String))
    (acc : Accuracy) (mvars : List String)
    (table : List ((String × String) × CompRow)) (v b : String) (row : CompRow)
    (h : comparison_dataframe controls acc mvars = some table)
    (hm : ((v, b), row) ∈ table) :
    (v = "age" → row.pums = some (personWeightSum acc.person_pums b) ∧
      row.gen = some ((genPersonCount acc.generated_persons b : ℚ))) ∧
    (v = "num_people" →
      row.pums = some (hhWeightSumByNumPeople acc.household_pums b) ∧
      row.gen = some ((genHHCountByNumPeople acc.generated_households b : ℚ))) ∧
    (v = "num_vehicles" →
      row.pums = some (hhWeightSumByNumVehicles acc.household_pums b) ∧
      row.gen = some ((genHHCountByNumVehicles acc.generated_households b : ℚ))) := by
  obtain ⟨l, hl, hrow⟩ := mem_comparison_rowVals h hm
  refine ⟨?_, ?_, ?_⟩
  · intro hv
    subst hv
    obtain ⟨m, _, hleq⟩ := rowVals_age hl
    rw [hrow, hleq, padRow_three]
    exact ⟨rfl, rfl⟩
  · intro hv
    subst hv
    obtain ⟨m, _, hleq⟩ := rowVals_num_people hl
    rw [hrow, hleq, padRow_three]
    exact ⟨rfl, rfl⟩
  · intro hv
    subst hv
    obtain ⟨m, _, hleq⟩ := rowVals_num_vehicles hl
    rw [hrow, hleq, padRow_three]
    exact ⟨rfl, rfl⟩

/-- C1 counterexample: on `accC1` the generated person with null first
column matches bin `"a"`, so one generated record matches, yet the built
row's `gen` cell is 0 — the claim's `generated_count = number of matching
generated records` is false for this input. -/
theorem comparison_branch_counts_cex :
    comparison_dataframe controlsAge accC1 ["all"] =
      some [(("age", "a"), ⟨some 0, some 0, some 5⟩)] ∧
    (accC1.generated_persons.filter (fun g => g.age = some "a")).length = 1 ∧
    CompRow.gen ⟨some 0, some 0, some 5⟩ ≠
      some (((accC1.generated_persons.filter
        (fun g => g.age = some "a")).length : ℚ)) := by
  refine ⟨?_, by simp [accC1], ?_⟩
  · simp [comparison_dataframe, buildVariables, removeCount, assocGet,
      varBinPairs, buildRowLists, rowVals, marginalSum, personWeightSum,
      genPersonCount, toCompTable, padRow, controlsAge, accC1]
  · simp [accC1]

/-- C1 witness: the amended theorem applied to the concrete input `accC1w`
with the explicit request `["age"]`. -/
theorem comparison_branch_counts_w :
    CompRow.pums ⟨some (5/2), some 2, some 5⟩ =
      some (personWeightSum accC1w.person_pums "a") ∧
    CompRow.gen ⟨some (5/2), some 2, some 5⟩ =
      some ((genPersonCount accC1w.generated_persons "a" : ℚ)) := by
  have hev : comparison_dataframe controlsAge accC1w ["age"] = some tableC1w := by
    simp [comparison_dataframe, buildVariables, dictInsert, removeCount, assocGet,
      varBinPairs, buildRowLists, rowVals, marginalSum, personWeightSum,
      genPersonCount, toCompTable, padRow, controlsAge, accC1w, tableC1w]
    norm_num
  exact (comparison_branch_counts controlsAge accC1w ["age"] tableC1w "age" "a"
    ⟨some (5/2), some 2, some 5⟩ hev (by simp [tableC1w])).1 rfl

/-- C2 (amended): a row for a requested variable with no
`age`/`num_people`/`num_vehicles` branch receives only the marginal column
sum, but the positional NaN-padding of the dataframe construction stores
that value under the `pums` (survey) column; the `gen` and `marginal` cells
of the row are the missing ones — not, as claimed, the survey and generated
cells. -/
theorem comparison_unmatched_row (controls : List (String × List String))
    (acc : Accuracy) (mvars : List String)
    (table : List ((String × String) × CompRow)) (v b : String) (row : CompRow)
    (h : comparison_dataframe controls acc mvars = some table)
    (hm : ((v, b), row) ∈ table)
    (h1 : v ≠ "age") (h2 : v ≠ "num_people") (h3 : v ≠ "num_vehicles") :
    ∃ mvals, assocGet acc.marginals (v ++ "_" ++ b) = some mvals ∧
      row = ⟨some mvals.sum, none, none⟩ := by
  obtain ⟨l, hl, hrow⟩ := mem_comparison_rowVals h hm
  obtain ⟨m, hms, hleq⟩ := rowVals_other h1 h2 h3 hl
  simp only [marginalSum, Option.map_eq_some'] at hms
  obtain ⟨mvals, hget, hsum⟩ := hms
  exact ⟨mvals, hget, by rw [hrow, hleq, padRow_one, hsum]⟩

/-- C2 counterexample: on `accFoo` the `("foo", "x")` row of the built
dataframe has its survey (`pums`) cell present — it holds the marginal
value 7 — while the `marginal` cell is missing, contradicting the claim
that the survey and generated entries are the missing ones. -/
theorem comparison_unmatched_row_cex :
    comparison_dataframe controlsFoo accFoo ["all"] = some tableFoo ∧
    CompRow.pums ⟨some 7, none, none⟩ ≠ none ∧
    CompRow.marginal ⟨some 7, none, none⟩ = none := by
  refine ⟨?_, by simp, rfl⟩
  simp [comparison_dataframe, buildVariables, removeCount, assocGet,
    varBinPairs, buildRowLists, rowVals, marginalSum, personWeightSum,
    genPersonCount, toCompTable, padRow, controlsFoo, accFoo, tableFoo]

/-- C2 witness: the amended theorem applied to the `("foo", "x")` row of
the dataframe built from `accFoo`. -/
theorem comparison_unmatched_row_w :
    ∃ mvals, assocGet accFoo.marginals ("foo" ++ "_" ++ "x") = some mvals ∧
      (⟨some 7, none, none⟩ : CompRow) = ⟨some mvals.sum, none, none⟩ := by
  have hev : comparison_dataframe controlsFoo accFoo ["all"] = some tableFoo := by
    simp [comparison_dataframe, buildVariables, removeCount, assocGet,
      varBinPairs, buildRowLists, rowVals, marginalSum, personWeightSum,
      genPersonCount, toCompTable, padRow, controlsFoo, accFoo, tableFoo]
  exact comparison_unmatched_row controlsFoo accFoo ["all"] tableFoo "foo" "x"
    ⟨some 7, none, none⟩ hev (by simp [tableFoo]) (by simp) (by simp) (by simp)

/-- C3 (amended): for rows of the three branch variables, when the marginal
column `<variable>_<bin>` holds the single value `m` (the single-row
marginals table of the specification), the row's `marginal` cell is exactly
`some m`, read verbatim.  For rows of other variables the `marginal` cell
is missing instead (see the C2 theorems), so the claim's universal form is
false. -/
theorem comparison_marginal_verbatim (controls : List (String × List String))
    (acc : Accuracy) (mvars : List String)
    (table : List ((String × String) × CompRow)) (v b : String) (row : CompRow)
    (m : ℚ) (h : comparison_dataframe controls acc mvars = some table)
    (hm : ((v, b), row) ∈ table)
    (hv : v = "age" ∨ v = "num_people" ∨ v = "num_vehicles")
    (hcol : assocGet acc.marginals (v ++ "_" ++ b) = some [m]) :
    row.marginal = some m := by
  obtain ⟨l, hl, hrow⟩ := mem_comparison_rowVals h hm
  have hms : marginalSum acc.marginals (v ++ "_" ++ b) = some m := by
    simp [marginalSum, hcol]
  rcases hv with hv | hv | hv
  · subst hv
    obtain ⟨m', hm', hleq⟩ := rowVals_age hl
    have hmm : m = m' := Option.some.inj (hms.symm.trans hm')
    rw [hrow, hleq, padRow_three, ← hmm]
  · subst hv
    obtain ⟨m', hm', hleq⟩ := rowVals_num_people hl
    have hmm : m = m' := Option.some.inj (hms.symm.trans hm')
    rw [hrow, hleq, padRow_three, ← hmm]
  · subst hv
    obtain ⟨m', hm', hleq⟩ := rowVals_num_vehicles hl
    have hmm : m = m' := Option.some.inj (hms.symm.trans hm')
    rw [hrow, hleq, padRow_three, ← hmm]

/-- C3 counterexample: on `accC3` (a single-row marginals table) the
`("bar", "y")` row of the built dataframe has a missing `marginal` cell
even though the column `bar_y` stores the value 6, so the claim's
`marginal_count = stored column value` fails for that row. -/
theorem comparison_marginal_verbatim_cex :
    comparison_dataframe controlsC3 accC3 ["all"] = some tableC3 ∧
    assocGet accC3.marginals ("bar" ++ "_" ++ "y") = some [6] ∧
    CompRow.marginal ⟨some 6, none, none⟩ ≠ some 6 := by
  refine ⟨?_, by simp [accC3, assocGet], by simp⟩
  simp [comparison_dataframe, buildVariables, removeCount, assocGet,
    varBinPairs, buildRowLists, rowVals, marginalSum, hhWeightSumByNumVehicles,
    genHHCountByNumVehicles, toCompTable, padRow, controlsC3, accC3, tableC3]

/-- C3 witness: the amended theorem applied to the `("num_vehicles", "0")`
row of the dataframe built from `accC3`. -/
theorem comparison_marginal_verbatim_w :
    CompRow.marginal ⟨some 0, some 0, some 4⟩ = some 4 := by
  have hev : comparison_dataframe controlsC3 accC3 ["all"] = some tableC3 := by
    simp [comparison_dataframe, buildVariables, removeCount, assocGet,
      varBinPairs, buildRowLists, rowVals, marginalSum, hhWeightSumByNumVehicles,
      genHHCountByNumVehicles, toCompTable, padRow, controlsC3, accC3, tableC3]
  exact comparison_marginal_verbatim controlsC3 accC3 ["all"] tableC3
    "num_vehicles" "0" ⟨some 0, some 0, some 4⟩ 4 hev (by simp [tableC3])
    (Or.inr (Or.inr rfl)) (by simp [accC3, assocGet])

theorem foldl_npAdd_fin (xs : List ℝ) :
    ∀ a : ℝ, (xs.map NpVal.fin).foldl npAdd (.fin a) = .fin (a + xs.sum) := by
  induction xs with
  | nil => intro a; simp
  | cons x xs ih =>
    intro a
    simp only [List.map_cons, List.foldl_cons, List.sum_cons, npAdd]
    rw [ih (a + x), add_assoc]

theorem filter_notNan_map_fin (xs : List ℝ) :
    (xs.map NpVal.fin).filter (fun v => !v.isNan) = xs.map NpVal.fin := by
  induction xs with
  | nil => rfl
  | cons x xs ih => simp [NpVal.isNan, ih]

theorem npMean_map_fin (xs : List ℝ) (h : xs ≠ []) :
    npMean (xs.map NpVal.fin) = .fin (lmean xs) := by
  unfold npMean
  rw [filter_notNan_map_fin]
  cases xs with
  | nil => exact absurd rfl h
  | cons y ys =>
    rw [if_neg (by simp), foldl_npAdd_fin (y :: ys) 0, zero_add]
    simp [npDivNat, lmean]

theorem lmean_nonneg (xs : List ℝ) (h : ∀ x ∈ xs, 0 ≤ x) : 0 ≤ lmean xs :=
  div_nonneg (List.sum_nonneg h) (Nat.cast_nonneg _)

/-- C5: on a non-empty comparison table whose cells are all present,
`root_mean_squared_error` returns exactly the pair of square roots of the
row means of the squared deviations of the `pums`/`gen` columns from the
`marginal` column; the baseline component is exactly 0 when `pums` equals
`marginal` in every row, and the synthetic component is always
non-negative. -/
theorem root_mean_squared_error_spec (rows : List (ℚ × ℚ × ℚ)) (h : rows ≠ []) :
    root_mean_squared_error (toCompRows rows) =
      (.fin (Real.sqrt (lmean (rows.map
          (fun r => ((r.1 : ℝ) - (r.2.2 : ℝ)) ^ 2)))),
       .fin (Real.sqrt (lmean (rows.map
          (fun r => ((r.2.1 : ℝ) - (r.2.2 : ℝ)) ^ 2))))) ∧
    ((∀ r ∈ rows, r.1 = r.2.2) →
      (root_mean_squared_error (toCompRows rows)).1 = .fin 0) ∧
    (∃ y, (root_mean_squared_error (toCompRows rows)).2 = .fin y ∧ 0 ≤ y) := by
  have hmap1 : (toCompRows rows).map (fun r => sqDiff r.pums r.marginal) =
      (rows.map (fun r => ((r.1 : ℝ) - (r.2.2 : ℝ)) ^ 2)).map NpVal.fin := by
    simp [toCompRows, List.map_map, Function.comp, sqDiff]
  have hmap2 : (toCompRows rows).map (fun r => sqDiff r.gen r.marginal) =
      (rows.map (fun r => ((r.2.1 : ℝ) - (r.2.2 : ℝ)) ^ 2)).map NpVal.fin := by
    simp [toCompRows, List.map_map, Function.comp, sqDiff]
  have hne1 : rows.map (fun r => ((r.1 : ℝ) - (r.2.2 : ℝ)) ^ 2) ≠ [] := by
    simpa using h
  have hne2 : rows.map (fun r => ((r.2.1 : ℝ) - (r.2.2 : ℝ)) ^ 2) ≠ [] := by
    simpa using h
  have hnn1 : 0 ≤ lmean (rows.map (fun r => ((r.1 : ℝ) - (r.2.2 : ℝ)) ^ 2)) :=
    lmean_nonneg _ (by
      intro x hx
      obtain ⟨r, _, hr⟩ := List.mem_map.mp hx
      exact hr ▸ sq_nonneg _)
  have hnn2 : 0 ≤ lmean (rows.map (fun r => ((r.2.1 : ℝ) - (r.2.2 : ℝ)) ^ 2)) :=
    lmean_nonneg _ (by
      intro x hx
      obtain ⟨r, _, hr⟩ := List.mem_map.mp hx
      exact hr ▸ sq_nonneg _)
  have heq : root_mean_squared_error (toCompRows rows) =
      (.fin (Real.sqrt (lmean (rows.map
          (fun r => ((r.1 : ℝ) - (r.2.2 : ℝ)) ^ 2)))),
       .fin (Real.sqrt (lmean (rows.map
          (fun r => ((r.2.1 : ℝ) - (r.2.2 : ℝ)) ^ 2))))) := by
    unfold root_mean_squared_error
    rw [hmap1, hmap2, npMean_map_fin _ hne1, npMean_map_fin _ hne2]
    simp [npSqrt, not_lt.mpr hnn1, not_lt.mpr hnn2]
  refine ⟨heq, ?_, ?_⟩
  · intro hall
    rw [heq]
    have hz : rows.map (fun r => ((r.1 : ℝ) - (r.2.2 : ℝ)) ^ 2) =
        rows.map (fun _ => (0 : ℝ)) := by
      refine List.map_congr_left ?_
      intro r hr
      rw [hall r hr]
      ring
    simp only [hz]
    have : lmean (rows.map (fun _ => (0 : ℝ))) = 0 := by
      simp [lmean, List.sum_eq_zero]
    rw [this, Real.sqrt_zero]
  · exact ⟨_, congrArg Prod.snd heq, Real.sqrt_nonneg _⟩

/-- C5 witness: the theorem applied to the one-row table
`(pums, gen, marginal) = (3, 4, 3)`: the baseline component is exactly 0
and the synthetic component is `sqrt 1 = 1 ≥ 0`. -/
theorem root_mean_squared_error_spec_w :
    (root_mean_squared_error (toCompRows [((3 : ℚ), 4, 3)])).1 = .fin 0 ∧
    (∃ y, (root_mean_squared_error (toCompRows [((3 : ℚ), 4, 3)])).2 =
      .fin y ∧ 0 ≤ y) := by
  have h := root_mean_squared_error_spec [((3 : ℚ), 4, 3)] (by simp)
  exact ⟨h.2.1 (by norm_num), h.2.2⟩

/-- C6: on a non-empty comparison table whose cells are all present,
`mean_root_squared_error` returns exactly the pair of row means of the
absolute deviations `|pums - marginal|` and `|gen - marginal|`: the per-row
values `sqrt((x - marginal)^2)` it averages are the absolute differences. -/
theorem mean_root_squared_error_abs (rows : List (ℚ × ℚ × ℚ)) (h : rows ≠ []) :
    mean_root_squared_error (toCompRows rows) =
      (.fin (lmean (rows.map (fun r => |(r.1 : ℝ) - (r.2.2 : ℝ)|))),
       .fin (lmean (rows.map (fun r => |(r.2.1 : ℝ) - (r.2.2 : ℝ)|)))) := by
  have hmap1 : (toCompRows rows).map (fun r => sqrtSqDiff r.pums r.marginal) =
      (rows.map (fun r => |(r.1 : ℝ) - (r.2.2 : ℝ)|)).map NpVal.fin := by
    simp only [toCompRows, List.map_map]
    refine List.map_congr_left ?_
    intro r _
    simp [Function.comp, sqrtSqDiff, Real.sqrt_sq_eq_abs]
  have hmap2 : (toCompRows rows).map (fun r => sqrtSqDiff r.gen r.marginal) =
      (rows.map (fun r => |(r.2.1 : ℝ) - (r.2.2 : ℝ)|)).map NpVal.fin := by
    simp only [toCompRows, List.map_map]
    refine List.map_congr_left ?_
    intro r _
    simp [Function.comp, sqrtSqDiff, Real.sqrt_sq_eq_abs]
  unfold mean_root_squared_error
  rw [hmap1, hmap2, npMean_map_fin _ (by simpa using h),
    npMean_map_fin _ (by simpa using h)]

/-- C6 witness: the theorem applied to the one-row table `(0, 2, 1)`: both
components are the absolute differences `1`. -/
theorem mean_root_squared_error_abs_w :
    mean_root_squared_error (toCompRows [((0 : ℚ), 2, 1)]) =
      (.fin 1, .fin 1) := by
  have h := mean_root_squared_error_abs [((0 : ℚ), 2, 1)] (by simp)
  rw [h]
  norm_num [lmean]

/-- C7: the per-row symmetric percentage error of
`mean_absolute_pct_error` is order-independent: for nonzero `a` and `b`,
the rows `(survey = a, marginal = b)` and `(survey = b, marginal = a)`
produce the same value, and that value is `|a - b| / ((a + b)/2)` whenever
the denominator is non-zero. -/
theorem pct_error_symmetric (a b : ℚ) (_ha : a ≠ 0) (_hb : b ≠ 0) :
    pctErrRow a b = pctErrRow b a ∧
    ((a : ℝ) + (b : ℝ) ≠ 0 →
      pctErrRow a b = .fin (|(a : ℝ) - (b : ℝ)| / (((a : ℝ) + (b : ℝ)) / 2))) := by
  constructor
  · unfold pctErrRow
    rw [abs_sub_comm, add_comm]
  · intro hab
    unfold pctErrRow npDiv
    rw [if_neg (by
      intro hz
      exact hab (by linarith [(div_eq_zero_iff.mp hz).resolve_right two_ne_zero]))]

/-- C7 witness: the theorem applied at `(80, 100)`: the two orders give the
same per-row error, equal to `20 / 90`. -/
theorem pct_error_symmetric_w :
    pctErrRow 80 100 = pctErrRow 100 80 ∧
    pctErrRow 80 100 = .fin (|(80 : ℝ) - (100 : ℝ)| / (((80 : ℝ) + (100 : ℝ)) / 2)) := by
  have h := pct_error_symmetric 80 100 (by norm_num) (by norm_num)
  exact ⟨h.1, h.2 (by norm_num)⟩

/-- C8: the division of `mean_absolute_pct_error` is unguarded: on a row
whose two present operands are both zero the per-row value is the NaN
result of `0/0`, and on a row whose operands make only the denominator sum
zero it is `+inf`; the per-row function is total, so no error is raised in
either case. -/
theorem pct_error_unguarded :
    pctDiff (some 0) (some 0) = .nan ∧
    ∀ x m : ℚ, x + m = 0 → x ≠ m → pctDiff (some x) (some m) = .pinf := by
  constructor
  · simp [pctDiff, pctErrRow, npDiv]
  · intro x m hsum hne
    have hden : ((x : ℝ) + (m : ℝ)) / 2 = 0 := by
      have : ((x : ℝ) + (m : ℝ)) = 0 := by exact_mod_cast hsum
      rw [this]
      norm_num
    have hnum : (0 : ℝ) < |(x : ℝ) - (m : ℝ)| := by
      refine abs_pos.mpr ?_
      intro hz
      exact hne (by
        have : (x : ℝ) = (m : ℝ) := by linarith
        exact_mod_cast this)
    simp [pctDiff, pctErrRow, npDiv, hden, ne_of_gt hnum, hnum]

/-- C8 witness: the theorem applied to the row `(2, -2)`, whose denominator
sum is zero while the operands differ: the per-row value is `+inf`. -/
theorem pct_error_unguarded_w : pctDiff (some 2) (some (-2)) = .pinf :=
  pct_error_unguarded.2 2 (-2) (by norm_num) (by norm_num)

/-- C4 witness: the theorem applied to the concrete input `accC4` with the
`all` request: the `count` pseudo-bin is absent from the built table and
the genuine bin `"1"` appears. -/
theorem num_people_count_excluded_w :
    (∀ r ∈ tableC4, r.1 ≠ ("num_people", "count")) ∧
    (∃ r ∈ tableC4, r.1 = ("num_people", "1")) := by
  have hev : comparison_dataframe controlsC4 accC4 ["all"] = some tableC4 := by
    simp [comparison_dataframe, buildVariables, removeCount, assocGet,
      varBinPairs, buildRowLists, rowVals, marginalSum, hhWeightSumByNumPeople,
      genHHCountByNumPeople, toCompTable, padRow, controlsC4, accC4, tableC4]
  have h := num_people_count_excluded controlsC4 accC4 ["all"] tableC4
    (by simp [controlsC4])
    (by
      intro bins hb
      simp only [controlsC4, List.mem_singleton, Prod.mk.injEq, true_and] at hb
      subst hb
      decide) hev
  exact ⟨h.1, h.2 ["count", "1", "2"] (by simp [controlsC4]) (Or.inl rfl) "1"
    (by simp) (by simp)⟩

/-- C9 (amended): for every geography mapping containing at least one
`(state, puma)` pair and every statistic name outside the three recognized
ones, `run_pumas` raises `AccuracyException` and returns no summary frame,
not even a partial one.  (For a mapping with no `(state, puma)` pair the
statistic name is never checked — see the C9 counterexample and C10.) -/
theorem run_pumas_bad_statistic (controls : List (String × List String))
    (state_puma : List (String × List String))
    (load : String → String → Accuracy) (mvars : List String)
    (statistic : String)
    (hne : statePumaPairs state_puma ≠ [])
    (h1 : statistic ≠ "mean_absolute_pct_error")
    (h2 : statistic ≠ "mean_root_squared_error")
    (h3 : statistic ≠ "root_mean_squared_error") :
    run_pumas controls state_puma load mvars statistic =
      .error .accuracyException := by
  unfold run_pumas
  cases hp : statePumaPairs state_puma with
  | nil => exact absurd hp hne
  | cons q rest =>
    obtain ⟨s, p⟩ := q
    simp [runPumasList, runPuma, h1, h2, h3, Except.map, bind, Except.bind]

/-- C9 counterexample: with the empty geography mapping the statistic name
`"bogus_stat"` is never checked, no error is raised, and an empty summary
frame is returned — the claim's universal quantification over every mapping
is false. -/
theorem run_pumas_bad_statistic_cex :
    run_pumas [] [] (fun _ _ => accEmpty) ["all"] "bogus_stat" =
      .ok ⟨[], ["marginal-pums", "marginal-doppelganger"]⟩ := rfl

/-- C9 witness: the amended theorem applied to a one-puma mapping and the
statistic name `"bogus_stat"`. -/
theorem run_pumas_bad_statistic_w :
    run_pumas [] [("20", ["00500"])] (fun _ _ => accEmpty) ["all"] "bogus_stat" =
      .error .accuracyException :=
  run_pumas_bad_statistic [] [("20", ["00500"])] (fun _ _ => accEmpty) ["all"]
    "bogus_stat" (by simp [statePumaPairs]) (by simp) (by simp) (by simp)

/-- C10: on the empty geography mapping `run_pumas` raises no error,
whatever the statistic name (the per-sub-area statistic check never runs),
and returns the empty summary frame with the two columns `marginal-pums`
and `marginal-doppelganger` and no rows. -/
theorem run_pumas_empty_map (controls : List (String × List String))
    (load : String → String → Accuracy) (mvars : List String)
    (statistic : String) :
    run_pumas controls [] load mvars statistic =
      .ok ⟨[], ["marginal-pums", "marginal-doppelganger"]⟩ := rfl

end Doppelganger
